import Mathlib

/-!
Shallow embedding of the streamtime harvesting pipeline (Go backend):
CSV importer, database upsert, scrape orchestrator (Manager), pagination
stop conditions of the Netflix and YouTube TV scrapers, session cookie
loading, and the date normalizers.  Machine integers of the source are
modelled as `Nat`/`Int`; fallible code returns `Option`/`Except`;
`time.Time` values are modelled by the `DateTime` structure below.
-/

set_option maxRecDepth 4000

/-- Model of a Go `time.Time` at minute granularity (the pipeline never
inspects seconds or finer).  Wall-clock location is ignored. -/
structure DateTime where
  year : Int
  month : Nat
  day : Nat
  hour : Nat
  minute : Nat
deriving DecidableEq, Repr

/-- Strict chronological order, Go's `t.After(u)`. -/
def DateTime.after (t u : DateTime) : Bool :=
  if t.year ≠ u.year then decide (t.year > u.year)
  else if t.month ≠ u.month then decide (t.month > u.month)
  else if t.day ≠ u.day then decide (t.day > u.day)
  else if t.hour ≠ u.hour then decide (t.hour > u.hour)
  else decide (t.minute > u.minute)

/-- Gregorian leap-year rule, as in Go's `time` package. -/
def isLeapYear (y : Int) : Bool :=
  y % 4 == 0 && (y % 100 != 0 || y % 400 == 0)

/-- Days in a month of a given year (months are 1-based). -/
def daysInMonth (y : Int) (m : Nat) : Nat :=
  if m = 2 then (if isLeapYear y then 29 else 28)
  else if m = 4 ∨ m = 6 ∨ m = 9 ∨ m = 11 then 30
  else 31

/-- Day-overflow carry used to model the normalization Go's `time.Date`
performs; `fuel` bounds the carries (inputs here have day ≤ 99, so fuel
100 is never exhausted). -/
def carryDays (fuel : Nat) (y : Int) (m : Nat) (d : Nat) : Int × Nat × Nat :=
  match fuel with
  | 0 => (y, m, d)
  | fuel + 1 =>
    if d > daysInMonth y m then
      if m = 12 then carryDays fuel (y + 1) 1 (d - daysInMonth y m)
      else carryDays fuel y (m + 1) (d - daysInMonth y m)
    else (y, m, d)

/-- Model of Go's `time.Date(y, m, d, hh, mm, 0, 0, loc)` for month in
1..12 and day in 0..99: day 0 borrows from the previous month, overflow
days carry forward. -/
def mkDate (y : Int) (m : Nat) (d : Nat) (hh mm : Nat) : DateTime :=
  if d = 0 then
    if m = 1 then ⟨y - 1, 12, 31, hh, mm⟩
    else ⟨y, m - 1, daysInMonth y (m - 1), hh, mm⟩
  else
    let (y', m', d') := carryDays 100 y m d
    ⟨y', m', d', hh, mm⟩

/-- Go's `t.AddDate(0, 0, -1)` restricted to the date part ("yesterday"). -/
def DateTime.prevDay (t : DateTime) : DateTime :=
  if t.day > 1 then { t with day := t.day - 1 }
  else if t.month = 1 then { t with year := t.year - 1, month := 12, day := 31 }
  else { t with month := t.month - 1, day := daysInMonth t.year (t.month - 1) }

/-! ### Kernel-reducible string utilities

The embedding works on `List Char` under the hood so that concrete
counterexamples evaluate by `decide`; these model the Go `strings`
functions the source uses. -/

/-- Go's `strings.TrimSpace`. -/
def trimString (s : String) : String :=
  ⟨((s.data.dropWhile Char.isWhitespace).reverse.dropWhile Char.isWhitespace).reverse⟩

/-- ASCII lower-casing, Go's `strings.ToLower` on the inputs in scope. -/
def toLowerString (s : String) : String :=
  ⟨s.data.map Char.toLower⟩

/-- Splitting worker: `fuel` dominates the input length, so the fuel is
never exhausted on real inputs. -/
def splitSepAux (sep : List Char) : Nat → List Char → List Char → List (List Char)
  | 0, _, acc => [acc.reverse]
  | fuel + 1, cs, acc =>
    match cs with
    | [] => [acc.reverse]
    | c :: rest =>
      if sep.isPrefixOf cs then
        acc.reverse :: splitSepAux sep fuel (cs.drop sep.length) []
      else
        splitSepAux sep fuel rest (c :: acc)

/-- Go's `strings.Split` (also Lean's `String.splitOn`) for a non-empty
separator. -/
def splitString (s sep : String) : List String :=
  if sep.data.isEmpty then [s]
  else (splitSepAux sep.data (s.data.length + 1) s.data []).map fun cs => ⟨cs⟩

/-- Concatenate with a separator, Go's `strings.Join`. -/
def joinString (sep : String) : List String → String
  | [] => ""
  | [x] => x
  | x :: xs => ⟨x.data ++ sep.data ++ (joinString sep xs).data⟩

/-- Go's `strings.ReplaceAll`. -/
def replaceAllString (s pat rep : String) : String :=
  joinString rep (splitString s pat)

/-- Go's `strings.Contains`. -/
def containsString (s sub : String) : Bool :=
  if sub.data.isEmpty then true
  else match splitString s sub with
    | [] => false
    | [_] => false
    | _ => true

/-! ### Numeric text fields of `time.Parse` layouts -/

/-- Value of a digit run (most significant first). -/
def digitsVal (cs : List Char) : Nat :=
  cs.foldl (fun a c => a * 10 + (c.toNat - 48)) 0

/-- A numeric layout field: all characters are digits and the length is
within the bounds the layout element imposes (`"1"` = 1..2 digits,
`"01"`/`"06"` = exactly 2, `"2006"` = exactly 4). -/
def numField (lo hi : Nat) (s : String) : Option Nat :=
  let cs := s.data
  if cs.all Char.isDigit ∧ lo ≤ cs.length ∧ cs.length ≤ hi then
    some (digitsVal cs)
  else none

/-- Two-digit year rule of Go's `time.Parse`: 69..99 map to 19xx,
00..68 map to 20xx. -/
def expandYY (yy : Nat) : Int :=
  if yy ≥ 69 then 1900 + (yy : Int) else 2000 + (yy : Int)

/-- Month/day range validation performed by `time.Parse`. -/
def validMonthDay (y : Int) (m d : Nat) : Bool :=
  1 ≤ m && m ≤ 12 && 1 ≤ d && d ≤ daysInMonth y m

/-- Layouts `"1/2/06"`, `"01/02/2006"`, `"1/2/2006"`: slash-separated
month, day, year with the given digit-count bounds. -/
def parseMDY (mLo mHi dLo dHi yLen : Nat) (s : String) : Option DateTime :=
  match splitString s "/" with
  | [ms, ds, ys] =>
    match numField mLo mHi ms, numField dLo dHi ds, numField yLen yLen ys with
    | some m, some d, some yraw =>
      let y : Int := if yLen = 2 then expandYY yraw else (yraw : Int)
      if validMonthDay y m d then some ⟨y, m, d, 0, 0⟩ else none
    | _, _, _ => none
  | _ => none

/-- Layout `"2006-01-02"` (ISO date). -/
def parseISO (s : String) : Option DateTime :=
  match splitString s "-" with
  | [ys, ms, ds] =>
    match numField 4 4 ys, numField 2 2 ms, numField 2 2 ds with
    | some y, some m, some d =>
      if validMonthDay (y : Int) m d then some ⟨(y : Int), m, d, 0, 0⟩ else none
    | _, _, _ => none
  | _ => none

/-- Abbreviated month names recognised by `time.Parse` layout `"Jan"`. -/
def monthAbbrevNames : List (String × Nat) :=
  [("Jan", 1), ("Feb", 2), ("Mar", 3), ("Apr", 4), ("May", 5), ("Jun", 6),
   ("Jul", 7), ("Aug", 8), ("Sep", 9), ("Oct", 10), ("Nov", 11), ("Dec", 12)]

/-- Full month names recognised by `time.Parse` layout `"January"`. -/
def monthFullNames : List (String × Nat) :=
  [("January", 1), ("February", 2), ("March", 3), ("April", 4), ("May", 5),
   ("June", 6), ("July", 7), ("August", 8), ("September", 9), ("October", 10),
   ("November", 11), ("December", 12)]

/-- Month-name lookup of `time.Parse`, which is case-insensitive. -/
def lookupMonthName (names : List (String × Nat)) (s : String) : Option Nat :=
  (names.find? (fun p => toLowerString p.1 == toLowerString s)).map (·.2)

/-- Layouts `"Jan 2, 2006"` and `"January 2, 2006"`: month name, day,
comma, 4-digit year. -/
def parseMonthNameDY (names : List (String × Nat)) (s : String) : Option DateTime :=
  match splitString s ", " with
  | [md, ys] =>
    match splitString md " " with
    | [mon, ds] =>
      match lookupMonthName names mon, numField 1 2 ds, numField 4 4 ys with
      | some m, some d, some y =>
        if validMonthDay (y : Int) m d then some ⟨(y : Int), m, d, 0, 0⟩ else none
      | _, _, _ => none
    | _ => none
  | _ => none

/-- Layouts `"Jan 2"` and `"January 2"` (no year): `time.Parse` fills in
year 0, validating the day against year 0 (a leap year). -/
def parseMonthNameD (names : List (String × Nat)) (s : String) : Option DateTime :=
  match splitString s " " with
  | [mon, ds] =>
    match lookupMonthName names mon, numField 1 2 ds with
    | some m, some d =>
      if validMonthDay 0 m d then some ⟨0, m, d, 0, 0⟩ else none
    | _, _ => none
  | _ => none

/-- Embedding of `NetflixImporter.parseDate`: try the six layouts in order, first
success wins. -/
def parseNetflixDate (s : String) : Option DateTime :=
  (parseMDY 1 2 1 2 2 s).orElse fun _ =>
  (parseMDY 2 2 2 2 4 s).orElse fun _ =>
  (parseMDY 1 2 1 2 4 s).orElse fun _ =>
  (parseISO s).orElse fun _ =>
  (parseMonthNameDY monthAbbrevNames s).orElse fun _ =>
  (parseMonthNameDY monthFullNames s)

/-- Embedding of `NetflixScraper.parseDate`: same layout list as the importer's, but
the scraper's version trims its input first. -/
def netflixScraperParseDate (s : String) : Option DateTime :=
  parseNetflixDate (trimString s)

example : parseNetflixDate "1/15/25" = some ⟨2025, 1, 15, 0, 0⟩ := by decide
example : parseNetflixDate "01/15/2025" = some ⟨2025, 1, 15, 0, 0⟩ := by decide
example : parseNetflixDate "2025-01-15" = some ⟨2025, 1, 15, 0, 0⟩ := by decide
example : parseNetflixDate "Jan 15, 2025" = some ⟨2025, 1, 15, 0, 0⟩ := by decide
example : parseNetflixDate "January 15, 2025" = some ⟨2025, 1, 15, 0, 0⟩ := by decide
example : parseNetflixDate "invalid date" = none := by decide

/-! ### `parseAmazonDate` (src/backend/internal/scraper/amazon.go) -/

/-- Whether a `time.Parse` layout string contains a year element
(`strings.Contains(format, "2006")` in the source). -/
def layoutHasYear (format : String) : Bool :=
  containsString format "2006"

/-- The six candidate formats `parseAmazonDate` tries, paired with their
parsers. -/
def amazonFormats : List (String × (String → Option DateTime)) :=
  [("January 2, 2006", parseMonthNameDY monthFullNames),
   ("Jan 2, 2006", parseMonthNameDY monthAbbrevNames),
   ("1/2/2006", parseMDY 1 2 1 2 4),
   ("2006-01-02", parseISO),
   ("January 2", parseMonthNameD monthFullNames),
   ("Jan 2", parseMonthNameD monthAbbrevNames)]

/-- First format that parses, with the year substituted by the current
year when the layout has none (exactly the loop in `parseAmazonDate`). -/
def amazonTryFormats (now : DateTime) (s : String)
    : List (String × (String → Option DateTime)) → Option DateTime
  | [] => none
  | (format, p) :: rest =>
    match p s with
    | some t =>
      if layoutHasYear format then some t
      else some (mkDate now.year t.month t.day 0 0)
    | none => amazonTryFormats now s rest

/-- Embedding of `parseAmazonDate`: relative markers "today"/"yesterday"
(case-insensitive) and the six textual formats; `now` stands for Go's
`time.Now()`. -/
def parseAmazonDate (now : DateTime) (dateStr : String) : Option DateTime :=
  let s := trimString dateStr
  if toLowerString s = "today" then
    some ⟨now.year, now.month, now.day, 0, 0⟩
  else if toLowerString s = "yesterday" then
    let y := DateTime.prevDay now
    some ⟨y.year, y.month, y.day, 0, 0⟩
  else
    amazonTryFormats now s amazonFormats

example : parseAmazonDate ⟨2025, 10, 11, 12, 0⟩ "October 28, 2024" =
    some ⟨2024, 10, 28, 0, 0⟩ := by decide
example : parseAmazonDate ⟨2025, 10, 11, 12, 0⟩ "Yesterday" =
    some ⟨2025, 10, 10, 0, 0⟩ := by decide
example : parseAmazonDate ⟨2025, 10, 11, 12, 0⟩ "Dec 25" =
    some ⟨2025, 12, 25, 0, 0⟩ := by decide

/-! ### YouTube TV date/time scanners (src/backend/internal/scraper/youtube_tv.go)

The source matches times and dates with `regexp`; the scanners below
implement exactly those regular expressions' leftmost-match semantics. -/

/-- Try to match `(\d{1,2}):(\d{2})\s*(AM|PM)` at the head of the
character list (greedy two digits, backtracking to one). -/
def matchTimeAt (cs : List Char) : Option (Nat × Nat × String) :=
  let afterHour : List Char → Nat → Option (Nat × Nat × String) := fun rest hour =>
    match rest with
    | ':' :: m1 :: m2 :: rest2 =>
      if m1.isDigit ∧ m2.isDigit then
        let rest3 := rest2.dropWhile Char.isWhitespace
        match rest3 with
        | 'A' :: 'M' :: _ => some (hour, digitsVal [m1, m2], "AM")
        | 'P' :: 'M' :: _ => some (hour, digitsVal [m1, m2], "PM")
        | _ => none
      else none
    | _ => none
  match cs with
  | d1 :: d2 :: rest =>
    if d1.isDigit then
      if d2.isDigit then
        match afterHour rest (digitsVal [d1, d2]) with
        | some r => some r
        | none => afterHour (d2 :: rest) (digitsVal [d1])
      else afterHour (d2 :: rest) (digitsVal [d1])
    else none
  | [d1] => if d1.isDigit then afterHour [] (digitsVal [d1]) else none
  | [] => none

/-- Leftmost match of the time regexp over the whole string. -/
def findTime : List Char → Option (Nat × Nat × String)
  | [] => none
  | c :: rest =>
    match matchTimeAt (c :: rest) with
    | some r => some r
    | none => findTime rest

/-- Convert the captured 12-hour time to 24-hour, exactly as the Go code
does after the regexp match. -/
def to24Hour (hour : Nat) (ampm : String) : Nat :=
  if ampm = "PM" ∧ hour ≠ 12 then hour + 12
  else if ampm = "AM" ∧ hour = 12 then 0
  else hour

/-- Try to match `([A-Za-z]+)\s+(\d{1,2})` at the head: a letter run,
whitespace, then up to two digits. -/
def matchMonthDayAt (cs : List Char) : Option (String × Nat) :=
  let letters := cs.takeWhile Char.isAlpha
  if letters.isEmpty then none
  else
    let rest := cs.drop letters.length
    let spaces := rest.takeWhile Char.isWhitespace
    if spaces.isEmpty then none
    else
      let rest2 := rest.drop spaces.length
      let ds := (rest2.takeWhile Char.isDigit).take 2
      if ds.isEmpty then none else some (⟨letters⟩, digitsVal ds)

/-- Leftmost match of the month-day regexp. -/
def findMonthDay : List Char → Option (String × Nat)
  | [] => none
  | c :: rest =>
    match matchMonthDayAt (c :: rest) with
    | some r => some r
    | none => findMonthDay rest

/-- Try to match `([A-Za-z]{3})\s+(\d{1,2})` at the head: exactly three
letters, whitespace, then up to two digits (the legacy date regexp). -/
def matchMonth3DayAt (cs : List Char) : Option (String × Nat) :=
  match cs with
  | a :: b :: c :: rest =>
    if a.isAlpha ∧ b.isAlpha ∧ c.isAlpha then
      let spaces := rest.takeWhile Char.isWhitespace
      if spaces.isEmpty then none
      else
        let rest2 := rest.drop spaces.length
        let ds := (rest2.takeWhile Char.isDigit).take 2
        if ds.isEmpty then none else some (⟨[a, b, c]⟩, digitsVal ds)
    else none
  | _ => none

/-- Leftmost match of the three-letter month-day regexp. -/
def findMonth3Day : List Char → Option (String × Nat)
  | [] => none
  | c :: rest =>
    match matchMonth3DayAt (c :: rest) with
    | some r => some r
    | none => findMonth3Day rest

/-- The `monthMap` of `parseDateAndTime` (full and abbreviated names,
exact-case lookup through a Go map). -/
def ytMonthMap : List (String × Nat) :=
  monthAbbrevNames ++ monthFullNames

/-- Exact-case month lookup (Go map indexing). -/
def lookupYtMonth (names : List (String × Nat)) (s : String) : Option Nat :=
  (names.find? (fun p => p.1 == s)).map (·.2)

/-- Embedding of `YouTubeTVScraper.parseDateAndTime`: combines a date header
("Yesterday", "Today", "Oct 27", ...) with a clock time ("6:00 PM");
`now` stands for Go's `time.Now()`.  A month-day header gets the current
year, decremented when the resulting date would lie in the future. -/
def parseDateAndTime (now : DateTime) (dateHeader timeStr : String) : Option DateTime :=
  let timeStr := replaceAllString timeStr "\u202F" " "
  match findTime timeStr.data with
  | none => none
  | some (h12, minute, ampm) =>
    let hour := to24Hour h12 ampm
    let dh := trimString dateHeader
    if dh = "Yesterday" then
      let y := DateTime.prevDay now
      some ⟨y.year, y.month, y.day, hour, minute⟩
    else if dh = "Today" then
      some ⟨now.year, now.month, now.day, hour, minute⟩
    else
      match findMonthDay dh.data with
      | some (monStr, day) =>
        match lookupYtMonth ytMonthMap monStr with
        | none => none
        | some month =>
          let year :=
            if (mkDate now.year month day 0 0).after now then now.year - 1
            else now.year
          some (mkDate year month day hour minute)
      | none => none
  
/-- Embedding of `YouTubeTVScraper.parseDate` (the legacy parser used inside the
pagination loop): substring checks for "Yesterday"/"Today", else the
three-letter month regexp, with a default time of 20:00. -/
def ytLegacyParseDate (now : DateTime) (dateStr : String) : Option DateTime :=
  if containsString dateStr "Yesterday" then
    let y := DateTime.prevDay now
    match findTime dateStr.data with
    | some (h12, minute, ampm) => some ⟨y.year, y.month, y.day, to24Hour h12 ampm, minute⟩
    | none => some ⟨y.year, y.month, y.day, 20, 0⟩
  else if containsString dateStr "Today" then
    match findTime dateStr.data with
    | some (h12, minute, ampm) => some ⟨now.year, now.month, now.day, to24Hour h12 ampm, minute⟩
    | none => some ⟨now.year, now.month, now.day, 20, 0⟩
  else
    match findMonth3Day dateStr.data with
    | some (monStr, day) =>
      match lookupYtMonth monthAbbrevNames monStr with
      | none => none
      | some month =>
        let year :=
          if (mkDate now.year month day 0 0).after now then now.year - 1
          else now.year
        match findTime dateStr.data with
        | some (h12, minute, ampm) => some (mkDate year month day (to24Hour h12 ampm) minute)
        | none => some (mkDate year month day 20 0)
    | none => none

example : parseDateAndTime ⟨2025, 10, 11, 12, 0⟩ "Oct 5" "6:00 PM" =
    some ⟨2025, 10, 5, 18, 0⟩ := by decide
example : parseDateAndTime ⟨2025, 10, 11, 12, 0⟩ "Dec 25" "6:00 PM" =
    some ⟨2024, 12, 25, 18, 0⟩ := by decide
example : parseDateAndTime ⟨2025, 10, 11, 12, 0⟩ "Yesterday" "12:05 AM" =
    some ⟨2025, 10, 10, 0, 5⟩ := by decide
example : ytLegacyParseDate ⟨2025, 10, 11, 12, 0⟩ "Dec 25 at 8:00 PM" =
    some ⟨2024, 12, 25, 20, 0⟩ := by decide

/-! ### Data model and store (src/unnamed/part_012, part_013)

`watch_history` rows carry the columns the upsert touches; `id` and
`created` are database-generated and not part of the upsert contract. -/

/-- A `database.WatchHistory` record / `watch_history` row. -/
structure WatchHistory where
  serviceID : Nat
  title : String
  durationMinutes : Nat
  watchedAt : DateTime
  episodeInfo : String
  thumbnailURL : String
  genre : String
deriving DecidableEq, Repr

/-- The `watch_history` table, in insertion order. -/
abbrev Store := List WatchHistory

/-- The `UNIQUE(service_id, title, watched_at)` key comparison: `row`
conflicts with `wh`. -/
def sameKey (row wh : WatchHistory) : Bool :=
  row.serviceID == wh.serviceID && row.title == wh.title && row.watchedAt == wh.watchedAt

/-- Some row of the store carries `wh`'s upsert key. -/
def keyExists (store : Store) (wh : WatchHistory) : Bool :=
  store.any (fun row => sameKey row wh)

/-- The `DO UPDATE SET` clause: refresh the non-key columns
(duration, episode info, thumbnail, genre) of the conflicting row. -/
def refreshRow (old wh : WatchHistory) : WatchHistory :=
  { old with durationMinutes := wh.durationMinutes, episodeInfo := wh.episodeInfo,
             thumbnailURL := wh.thumbnailURL, genre := wh.genre }

/-- Embedding of `DB.InsertWatchHistory`: `INSERT ... ON CONFLICT(service_id, title,
watched_at) DO UPDATE SET ...` — update the conflicting row if one
exists (the unique index allows at most one), else append. -/
def InsertWatchHistory (store : Store) (wh : WatchHistory) : Store :=
  match store with
  | [] => [wh]
  | row :: rest =>
    if sameKey row wh then refreshRow row wh :: rest
    else row :: InsertWatchHistory rest wh

/-- Modelled from the spec: the body of `DB.WatchHistoryExists` is the
code missing from src/ (only its three call sites are present); §6
specifies `recordExists(platform, title, episodeLabel, watchedAt) ->
bool`, a membership test on all four fields. -/
def WatchHistoryExists (store : Store) (serviceID : Nat) (title episodeInfo : String)
    (watchedAt : DateTime) : Bool :=
  store.any fun row =>
    row.serviceID == serviceID && row.title == title &&
    row.episodeInfo == episodeInfo && row.watchedAt == watchedAt

/-! ### CSV importer (src/backend/internal/importer/importer.go)

The `encoding/csv` reader and the TMDB HTTP client are external
collaborators: a decoded record is a `List String` (or a read error),
and enrichment is a function `String → Option ContentInfo` (`none` for
any lookup failure). -/

/-- Embedding of `importer.ContentInfo`. -/
structure ContentInfo where
  title : String
  durationMinutes : Nat
  mediaType : String
deriving DecidableEq, Repr

/-- Embedding of `importer.CSVRow`. -/
structure CSVRow where
  title : String
  date : String
deriving DecidableEq, Repr

/-- Embedding of `importer.ImportResult`. -/
structure ImportResult where
  totalRows : Nat
  imported : Nat
  skipped : Nat
  errors : Nat
  errorMessages : List String
deriving DecidableEq, Repr

/-- Embedding of `NetflixImporter.estimateDuration`: 40 minutes with episode info
(TV heuristic), 105 without (movie heuristic). -/
def estimateDuration (_title episodeInfo : String) : Nat :=
  if episodeInfo ≠ "" then 40 else 105

/-- Embedding of `NetflixImporter.splitTitleAndEpisode`: `strings.SplitN(fullTitle,
":", 2)` and trim both parts; no colon means no episode info. -/
def splitTitleAndEpisode (fullTitle : String) : String × String :=
  match splitString fullTitle ":" with
  | [only] => (trimString only, "")
  | p0 :: rest => (trimString p0, trimString (joinString ":" rest))
  | [] => (trimString fullTitle, "")

/-- The Netflix service id the importer is constructed with. -/
def importerServiceID : Nat := 1

/-- Embedding of `NetflixImporter.processRow`: parse the date, split the title, try
TMDB (falling back to the heuristic duration), skip when the entry
already exists, else insert.  Returns the possibly-extended store, or
the row's error. -/
def processRow (tmdb : String → Option ContentInfo) (store : Store) (row : CSVRow)
    : Except String Store :=
  match parseNetflixDate row.date with
  | none => .error ("failed to parse date \x27" ++ row.date ++ "\x27")
  | some watchedAt =>
    let (title, episodeInfo) := splitTitleAndEpisode row.title
    let contentInfo :=
      match tmdb title with
      | some ci => ci
      | none => ⟨title, estimateDuration title episodeInfo, "unknown"⟩
    let watchHistory : WatchHistory :=
      ⟨importerServiceID, title, contentInfo.durationMinutes, watchedAt, episodeInfo, "", ""⟩
    if WatchHistoryExists store importerServiceID title episodeInfo watchedAt then
      .ok store
    else
      .ok (InsertWatchHistory store watchHistory)

/-- The row loop of `NetflixImporter.ImportCSV`: one decoded record per
iteration; `.error` records model `csvReader.Read` failures. -/
def importRows (tmdb : String → Option ContentInfo)
    : List (Except String (List String)) → Store → ImportResult → ImportResult × Store
  | [], store, result => (result, store)
  | .error e :: rest, store, result =>
    importRows tmdb rest store
      { result with errors := result.errors + 1,
                    errorMessages := result.errorMessages ++ ["CSV read error: " ++ e] }
  | .ok record :: rest, store, result =>
    let result := { result with totalRows := result.totalRows + 1 }
    match record with
    | f0 :: f1 :: _ =>
      let row : CSVRow := ⟨trimString f0, trimString f1⟩
      match processRow tmdb store row with
      | .error e =>
        importRows tmdb rest store
          { result with errors := result.errors + 1,
                        errorMessages := result.errorMessages ++
                          ["Error processing \x27" ++ row.title ++ "\x27: " ++ e] }
      | .ok store' =>
        importRows tmdb rest store' { result with imported := result.imported + 1 }
    | _ =>
      importRows tmdb rest store { result with skipped := result.skipped + 1 }

/-- Embedding of `NetflixImporter.ImportCSV`: reject a header of fewer than two
columns, then run the row loop.  `none` models the fatal
invalid-header error. -/
def ImportCSV (tmdb : String → Option ContentInfo) (store : Store) (header : List String)
    (records : List (Except String (List String))) : Option (ImportResult × Store) :=
  if header.length < 2 then none
  else some (importRows tmdb records store ⟨0, 0, 0, 0, []⟩)

/-! ### Orchestrator (`Manager`, src/backend/internal/scraper/amazon.go)

A driver invocation is its outcome (`Except`); which individual upserts
fail is an index predicate `persistFails` (`DB.InsertWatchHistory`
returning an error for that item). -/

/-- A row of the `services` table. -/
structure Service where
  id : Nat
  name : String
  enabled : Bool
deriving DecidableEq, Repr

/-- A `database.ScraperRun` audit entry (the RunOutcome). -/
structure ScraperRun where
  serviceID : Nat
  status : String
  errorMessage : String
  itemsScraped : Nat
deriving DecidableEq, Repr

/-- Embedding of `scraper.Result`. -/
structure Result where
  serviceName : String
  itemsScraped : Nat
  success : Bool
  error : Option String
deriving DecidableEq, Repr

/-- The persistence loop of `Manager.Run`: default the service id when
the scraper left it zero, attempt each upsert, and keep going past
failed ones (`continue`). -/
def persistItems (persistFails : Nat → Bool) (serviceID : Nat)
    : List WatchHistory → Nat → Store → Store
  | [], _, store => store
  | item :: rest, i, store =>
    let item := if item.serviceID = 0 then { item with serviceID := serviceID } else item
    let store := if persistFails i then store else InsertWatchHistory store item
    persistItems persistFails serviceID rest (i + 1) store

/-- Embedding of `Manager.Run` for a registered scraper: resolve the service, run the
driver, persist on success, and append the run outcome.  Returns the
`Result`, the error returned to the caller, and the updated store and
run history. -/
def managerRun (svc : Option Service) (scrape : Except String (List WatchHistory))
    (persistFails : Nat → Bool) (serviceName : String) (store : Store)
    (runs : List ScraperRun) : Result × Option String × Store × List ScraperRun :=
  match svc with
  | none =>
    (⟨serviceName, 0, false, some "service not found in database"⟩,
     some "service not found in database", store, runs)
  | some service =>
    match scrape with
    | .error e =>
      (⟨serviceName, 0, false, some e⟩, some e, store,
       runs ++ [⟨service.id, "failed", e, 0⟩])
    | .ok items =>
      let store := persistItems persistFails service.id items 0 store
      (⟨serviceName, items.length, true, none⟩, none, store,
       runs ++ [⟨service.id, "success", "", items.length⟩])

/-- One registered driver as `Manager.RunAll` sees it: its name, its
service lookup, its scrape outcome, and which of its upserts fail. -/
structure DriverSpec where
  name : String
  svc : Option Service
  scrape : Except String (List WatchHistory)
  persistFails : Nat → Bool

/-- Embedding of `Manager.RunAll`: run every registered driver sequentially,
collecting every `Result` whether or not the driver failed; the
aggregate error is always `none`. -/
def managerRunAll : List DriverSpec → Store → List ScraperRun
    → List Result × Option String × Store × List ScraperRun
  | [], store, runs => ([], none, store, runs)
  | d :: ds, store, runs =>
    let (r, _, store', runs') := managerRun d.svc d.scrape d.persistFails d.name store runs
    let (rs, e, store'', runs'') := managerRunAll ds store' runs'
    (r :: rs, e, store'', runs'')

/-! ### Netflix pagination (`NetflixScraper.scrollToLoadItems`)

One loop iteration observes the page after the "Show More" click: the
button's presence, the rendered row count, and the last row's title and
date text (`none` when no row is rendered, mirroring the empty-JSON
branch). -/

/-- What iteration `k` of the Netflix loop observes. -/
structure NetflixSnapshot where
  showMore : Bool
  itemCount : Nat
  lastItem : Option (String × String)

/-- Why the pagination loop halted. -/
inductive HaltReason
  | ageThreshold
  | existingEntry
  | stableCount
  | noMoreButton
deriving DecidableEq, Repr

/-- The loop-carried variables of `scrollToLoadItems`. -/
structure ScrollState where
  previousCount : Nat
  stableCountIterations : Nat
  clickCount : Nat
deriving DecidableEq, Repr

/-- The constant `targetYear := 2025` of `scrollToLoadItems`. -/
def netflixTargetYear : Int := 2025

/-- The constant `serviceID := int64(1)` of `scrollToLoadItems`. -/
def netflixServiceID : Nat := 1

/-- The duplicate-check key of the Netflix loop: trim the last row's
title and split it at the first colon if it has one. -/
def netflixScrollKey (rawTitle : String) : String × String :=
  let t := trimString rawTitle
  if containsString t ":" then
    match splitString t ":" with
    | p0 :: rest => (trimString p0, trimString (joinString ":" rest))
    | [] => (t, "")
  else (t, "")

/-- One iteration of the Netflix loop body after the click (the caller
has already incremented `clickCount`): year check, then existing-entry
check, then stability, then button-gone check; `.inl` is a halt with the
current item count, `.inr` continues with the next state. -/
def netflixIterate (store : Store) (snap : NetflixSnapshot) (st : ScrollState)
    : Sum (HaltReason × Nat) ScrollState :=
  let currentCount := snap.itemCount
  let stable := if currentCount = st.previousCount then st.stableCountIterations + 1 else 0
  let haltFromLastItem : Option HaltReason :=
    match snap.lastItem with
    | some (rawTitle, rawDate) =>
      if rawDate ≠ "" then
        match netflixScraperParseDate (trimString rawDate) with
        | some lastDate =>
          if lastDate.year < netflixTargetYear then some .ageThreshold
          else
            let (title, episodeInfo) := netflixScrollKey rawTitle
            if WatchHistoryExists store netflixServiceID title episodeInfo lastDate then
              some .existingEntry
            else none
        | none => none
      else none
    | none => none
  match haltFromLastItem with
  | some r => .inl (r, currentCount)
  | none =>
    if stable ≥ 3 then .inl (.stableCount, currentCount)
    else if snap.showMore = false ∧ currentCount = st.previousCount then
      .inl (.noMoreButton, currentCount)
    else .inr ⟨currentCount, stable, st.clickCount⟩

/-- The Netflix `for {}` loop, observed for `fuel` iterations: `none`
means it had not halted after `fuel` iterations (the source loop has no
iteration cap of its own). -/
def netflixScrollLoop (store : Store) (feed : Nat → NetflixSnapshot)
    : Nat → ScrollState → Option (HaltReason × Nat)
  | 0, _ => none
  | fuel + 1, st =>
    let k := st.clickCount + 1
    match netflixIterate store (feed k) { st with clickCount := k } with
    | .inl r => some r
    | .inr st' => netflixScrollLoop store feed fuel st'

/-- The Netflix `scrollToLoadItems` loop from its initial state, observed for `fuel`
iterations. -/
def netflixScroll (store : Store) (feed : Nat → NetflixSnapshot) (fuel : Nat)
    : Option (HaltReason × Nat) :=
  netflixScrollLoop store feed fuel ⟨0, 0, 0⟩

/-- The age-threshold trigger would fire on this snapshot: the last
row's date parses to a year below the cutoff. -/
def netflixAgeWouldFire (snap : NetflixSnapshot) : Bool :=
  match snap.lastItem with
  | some (_, rawDate) =>
    rawDate != "" &&
      (match netflixScraperParseDate (trimString rawDate) with
       | some d => decide (d.year < netflixTargetYear)
       | none => false)
  | none => false

/-- The existing-entry trigger would fire on this snapshot: the last
row's date parses and its (title, episode, date) key is already stored. -/
def netflixExistingWouldFire (store : Store) (snap : NetflixSnapshot) : Bool :=
  match snap.lastItem with
  | some (rawTitle, rawDate) =>
    rawDate != "" &&
      (match netflixScraperParseDate (trimString rawDate) with
       | some d =>
         let (title, episodeInfo) := netflixScrollKey rawTitle
         WatchHistoryExists store netflixServiceID title episodeInfo d
       | none => false)
  | none => false

/-! ### YouTube TV pagination (`YouTubeTVScraper.scrollToLoadItems`) -/

/-- What iteration `k` of the YouTube TV loop observes. -/
structure YTSnapshot where
  itemCount : Nat
  lastDateText : String
  lastTitle : String

/-- Scraper config fields the loop reads. -/
structure YTScraperConfig where
  testMode : Bool
  testLimit : Nat

/-- Why the YouTube TV loop stopped. -/
inductive YTHalt
  | testLimitReached
  | existingEntry
  | stableCount
  | maxClicksReached
deriving DecidableEq, Repr

/-- The constant `maxClicks := 200` of `scrollToLoadItems`. -/
def ytMaxClicks : Nat := 200

/-- One body of the `for clickCount < maxClicks` loop: the test-mode
check, the stability update, then the existing-entry check and the
stability check, in source order.  Returns the halt cause (if any halt
fires) together with the updated `stableCountIterations` and
`previousCount`. -/
def ytIterate (now : DateTime) (store : Store) (serviceID : Nat)
    (cfg : YTScraperConfig) (snap : YTSnapshot) (stable prev : Nat)
    : Option YTHalt × Nat × Nat :=
  let currentCount := snap.itemCount
  if cfg.testMode ∧ currentCount ≥ cfg.testLimit then (some .testLimitReached, stable, prev)
  else
    let stable' := if currentCount = prev then stable + 1 else 0
    let existingHit : Bool :=
      if snap.lastDateText != "" then
        if snap.lastTitle != "" then
          match ytLegacyParseDate now snap.lastDateText with
          | some d => WatchHistoryExists store serviceID snap.lastTitle "" d
          | none => false
        else false
      else false
    if existingHit then (some .existingEntry, stable', currentCount)
    else if stable' ≥ 3 then (some .stableCount, stable', currentCount)
    else (none, stable', currentCount)

/-- The `for clickCount < maxClicks` loop; `budget` is the remaining
`maxClicks - clickCount`.  Returns the halt cause and the final
`clickCount`. -/
def ytScrollLoop (now : DateTime) (store : Store) (serviceID : Nat)
    (cfg : YTScraperConfig) (feed : Nat → YTSnapshot)
    : Nat → Nat → Nat → Nat → YTHalt × Nat
  | 0, clickCount, _, _ => (.maxClicksReached, clickCount)
  | budget + 1, clickCount, stable, prev =>
    let k := clickCount + 1
    match ytIterate now store serviceID cfg (feed k) stable prev with
    | (some halt, _, _) => (halt, k)
    | (none, stable', prev') => ytScrollLoop now store serviceID cfg feed budget k stable' prev'

/-- Embedding of `YouTubeTVScraper.scrollToLoadItems`: resolve the service (failure
aborts before the loop), then run the loop from its initial state. -/
def ytScrollToLoadItems (svc : Option Service) (now : DateTime) (store : Store)
    (cfg : YTScraperConfig) (feed : Nat → YTSnapshot) : Except String (YTHalt × Nat) :=
  match svc with
  | none => .error "failed to get service"
  | some service => .ok (ytScrollLoop now store service.id cfg feed ytMaxClicks 0 0 0)

/-! ### Session cookie loading (the three `loadCookies` functions) -/

/-- A cookie-set attempt: the cookie's name and whether the browser
accepted it. -/
abbrev CookieAttempt := String × Bool

/-- The shared set-each-cookie loop of the Amazon and Netflix
bootstraps: the first rejected cookie aborts with an error. -/
def setCookiesSequentially : List CookieAttempt → Except String Unit
  | [] => .ok ()
  | (name, ok) :: rest =>
    if ok then setCookiesSequentially rest
    else .error ("failed to set cookie " ++ name)

/-- Embedding of `AmazonScraper.loadCookies`: navigate, then set each cookie,
aborting on the first failure. -/
def amazonLoadCookies (navOk : Bool) (cookies : List CookieAttempt) : Except String Unit :=
  if navOk then setCookiesSequentially cookies
  else .error "failed to navigate to amazon.com"

/-- Embedding of `NetflixScraper.loadCookies`: an empty cookie list is an error, then
navigate, then set each cookie, aborting on the first failure. -/
def netflixLoadCookies (navOk : Bool) (cookies : List CookieAttempt) : Except String Unit :=
  if cookies.isEmpty then .error "no cookies provided"
  else if navOk then setCookiesSequentially cookies
  else .error "failed to navigate to Netflix"

/-- The two Google domains the YouTube TV bootstrap replicates cookies
across. -/
def ytCookieDomains : List String := [".google.com", ".accounts.google.com"]

/-- Embedding of `YouTubeTVScraper.loadCookies`: navigate, then try every cookie on
every domain, merely counting the ones that were accepted; never fails
after navigation, whatever the count. -/
def ytLoadCookies (navOk : Bool) (cookies : List String)
    (setOk : String → String → Bool) : Except String Nat :=
  if navOk then
    .ok (ytCookieDomains.foldl
      (fun acc d => cookies.foldl (fun a c => if setOk d c then a + 1 else a) acc) 0)
  else .error "navigation failed"

/-- Whether an `Except` is a success. -/
def exceptOk {ε α : Type} : Except ε α → Bool
  | .ok _ => true
  | .error _ => false

/-! ## Store lemmas shared by several claims -/

/-- A row conflicting with `wh` conflicts with exactly what `wh`
conflicts with (key fields coincide). -/
theorem sameKey_trans_eq {row wh x : WatchHistory} (h : sameKey row wh = true) :
    sameKey wh x = sameKey row x := by
  simp only [sameKey, Bool.and_eq_true, beq_iff_eq] at h
  simp [sameKey, h.1.1, h.1.2, h.2]

/-- Refreshing non-key columns preserves the key comparison. -/
theorem sameKey_refreshRow (row wh x : WatchHistory) :
    sameKey (refreshRow row wh) x = sameKey row x := by
  simp [sameKey, refreshRow]

/-- Reflexivity of `sameKey`. -/
theorem sameKey_self (wh : WatchHistory) : sameKey wh wh = true := by
  simp [sameKey]

/-- After an upsert the stored keys are the old keys plus `wh`'s key. -/
theorem keyExists_insert (store : Store) (wh x : WatchHistory) :
    keyExists (InsertWatchHistory store wh) x = (keyExists store x || sameKey wh x) := by
  induction store with
  | nil => simp [InsertWatchHistory, keyExists]
  | cons row rest ih =>
    by_cases hk : sameKey row wh = true
    · show keyExists (if sameKey row wh then refreshRow row wh :: rest
        else row :: InsertWatchHistory rest wh) x = _
      rw [if_pos hk]
      simp only [keyExists, List.any_cons, sameKey_refreshRow, sameKey_trans_eq hk]
      cases sameKey row x <;> simp
    · have hk' : sameKey row wh = false := by simpa using hk
      show keyExists (if sameKey row wh then refreshRow row wh :: rest
        else row :: InsertWatchHistory rest wh) x = _
      rw [if_neg hk]
      simp only [keyExists, List.any_cons] at ih ⊢
      rw [ih]
      cases sameKey row x <;> simp

/-- An upsert whose key is already stored does not change the row
count (the `DO UPDATE` branch). -/
theorem length_insert_of_keyExists {store : Store} {wh : WatchHistory}
    (h : keyExists store wh = true) :
    (InsertWatchHistory store wh).length = store.length := by
  induction store with
  | nil => simp [keyExists] at h
  | cons row rest ih =>
    by_cases hk : sameKey row wh = true
    · simp [InsertWatchHistory, hk]
    · have hk' : sameKey row wh = false := by simpa using hk
      simp only [keyExists, List.any_cons, hk', Bool.false_or] at h
      simp [InsertWatchHistory, hk', ih h]

/-- An upsert of a fresh key appends one row. -/
theorem length_insert_of_not_keyExists {store : Store} {wh : WatchHistory}
    (h : keyExists store wh = false) :
    (InsertWatchHistory store wh).length = store.length + 1 := by
  induction store with
  | nil => simp [InsertWatchHistory]
  | cons row rest ih =>
    simp only [keyExists, List.any_cons, Bool.or_eq_false_iff] at h
    simp [InsertWatchHistory, h.1, ih h.2]

/-- Batch upsert `rs.foldl InsertWatchHistory store`: upsert records in order
(the per-record persistence loop at the store level). -/
def upsertAll (store : Store) (rs : List WatchHistory) : Store :=
  rs.foldl InsertWatchHistory store

/-- Stored keys survive a batch of upserts. -/
theorem keyExists_upsertAll_mono {store : Store} {rs : List WatchHistory}
    {x : WatchHistory} (h : keyExists store x = true) :
    keyExists (upsertAll store rs) x = true := by
  induction rs generalizing store with
  | nil => exact h
  | cons r rest ih =>
    have : keyExists (InsertWatchHistory store r) x = true := by
      rw [keyExists_insert, h, Bool.true_or]
    exact ih this

/-- After a batch of upserts every batch member's key is stored. -/
theorem keyExists_upsertAll_mem {store : Store} {rs : List WatchHistory}
    {r : WatchHistory} (h : r ∈ rs) :
    keyExists (upsertAll store rs) r = true := by
  induction rs generalizing store with
  | nil => cases h
  | cons a rest ih =>
    cases h with
    | head =>
      show keyExists (upsertAll (InsertWatchHistory store r) rest) r = true
      exact keyExists_upsertAll_mono (by rw [keyExists_insert, sameKey_self, Bool.or_true])
    | tail _ hmem =>
      show keyExists (upsertAll (InsertWatchHistory store a) rest) r = true
      exact ih hmem

/-- A batch of upserts whose keys are all already stored changes no row
count. -/
theorem length_upsertAll_of_all_present {store : Store} {rs : List WatchHistory}
    (h : ∀ r ∈ rs, keyExists store r = true) :
    (upsertAll store rs).length = store.length := by
  induction rs generalizing store with
  | nil => rfl
  | cons a rest ih =>
    have ha := h a (by simp)
    have hrest : ∀ r ∈ rest, keyExists (InsertWatchHistory store a) r = true := by
      intro r hr
      rw [keyExists_insert, h r (by simp [hr]), Bool.true_or]
    calc (upsertAll (InsertWatchHistory store a) rest).length
        = (InsertWatchHistory store a).length := ih hrest
      _ = store.length := length_insert_of_keyExists ha

/-- The `DO UPDATE` branch rewrites the conflicting row in place. -/
theorem find_insert_of_found {store : Store} {wh old : WatchHistory}
    (h : store.find? (fun row => sameKey row wh) = some old) :
    (InsertWatchHistory store wh).find? (fun row => sameKey row wh)
      = some (refreshRow old wh) := by
  induction store with
  | nil => simp [List.find?] at h
  | cons row rest ih =>
    by_cases hk : sameKey row wh = true
    · simp only [List.find?_cons, hk] at h
      injection h with h3
      subst h3
      show List.find? _ (if sameKey row wh then refreshRow row wh :: rest
        else row :: InsertWatchHistory rest wh) = _
      rw [if_pos hk]
      simp only [List.find?_cons, sameKey_refreshRow, hk]
    · have hk' : sameKey row wh = false := by simpa using hk
      simp only [List.find?_cons, hk'] at h
      show List.find? _ (if sameKey row wh then refreshRow row wh :: rest
        else row :: InsertWatchHistory rest wh) = _
      rw [if_neg hk]
      simp only [List.find?_cons, hk']
      exact ih h

/-- A found conflict means the key exists. -/
theorem keyExists_of_find {store : Store} {wh old : WatchHistory}
    (h : store.find? (fun row => sameKey row wh) = some old) :
    keyExists store wh = true := by
  induction store with
  | nil => simp [List.find?] at h
  | cons row rest ih =>
    by_cases hk : sameKey row wh = true
    · simp only [keyExists, List.any_cons, hk, Bool.true_or]
    · have hk' : sameKey row wh = false := by simpa using hk
      simp only [List.find?_cons, hk'] at h
      simp only [keyExists, List.any_cons, hk', Bool.false_or]
      exact ih h

/-! ## Claim C2 — upsert refresh and idempotent row count -/

/-- C2: a write whose (platform, title, watched-at) key already exists
overwrites the non-key fields of the existing row and never creates a
second row, and persisting an identical set of records twice leaves the
same stored row count as persisting it once. -/
theorem C2_upsert_refresh (store : Store) (wh old : WatchHistory)
    (h : store.find? (fun row => sameKey row wh) = some old) :
    (InsertWatchHistory store wh).length = store.length ∧
    (InsertWatchHistory store wh).find? (fun row => sameKey row wh)
      = some (refreshRow old wh) ∧
    ∀ (s : Store) (rs : List WatchHistory),
      (upsertAll (upsertAll s rs) rs).length = (upsertAll s rs).length := by
  refine ⟨length_insert_of_keyExists (keyExists_of_find h), find_insert_of_found h, ?_⟩
  intro s rs
  exact length_upsertAll_of_all_present fun r hr => keyExists_upsertAll_mem hr

/-- Concrete store for the C2 witness. -/
def c2Old : WatchHistory := ⟨1, "The Matrix", 105, ⟨2025, 3, 1, 0, 0⟩, "", "", ""⟩

/-- Concrete refreshed record for the C2 witness. -/
def c2New : WatchHistory := ⟨1, "The Matrix", 136, ⟨2025, 3, 1, 0, 0⟩, "", "url", "SciFi"⟩

/-- Witness for C2 at a concrete store and record. -/
theorem C2_upsert_refresh_witness :
    (InsertWatchHistory [c2Old] c2New).length = [c2Old].length ∧
    (InsertWatchHistory [c2Old] c2New).find? (fun row => sameKey row c2New)
      = some (refreshRow c2Old c2New) ∧
    ∀ (s : Store) (rs : List WatchHistory),
      (upsertAll (upsertAll s rs) rs).length = (upsertAll s rs).length :=
  C2_upsert_refresh [c2Old] c2New c2Old (by decide)

/-! ## Claim C9 — concrete import scenario -/

/-- C9: importing the CSV row
`"Stranger Things: Season 1: Chapter One",1/15/25` with enrichment
unavailable yields the record with base title "Stranger Things",
episode label "Season 1: Chapter One" (split at the first colon),
watched-at 2025-01-15 and the 40-minute TV heuristic duration. -/
theorem C9_stranger_things_scenario :
    ImportCSV (fun _ => none) [] ["Title", "Date"]
      [.ok ["Stranger Things: Season 1: Chapter One", "1/15/25"]] =
    some (⟨1, 1, 0, 0, []⟩,
      [⟨1, "Stranger Things", 40, ⟨2025, 1, 15, 0, 0⟩, "Season 1: Chapter One", "", ""⟩]) := by
  decide

/-! ## Claim C3 — success RunOutcome item count when some upserts fail -/

/-- The two records of the C3 counterexample run. -/
def c3Items : List WatchHistory :=
  [⟨0, "Movie A", 105, ⟨2025, 5, 1, 0, 0⟩, "", "", ""⟩,
   ⟨0, "Movie B", 105, ⟨2025, 5, 2, 0, 0⟩, "", "", ""⟩]

/-- The C3 run: the driver returns two records; persisting the first
fails, the second succeeds. -/
def c3Run : Result × Option String × Store × List ScraperRun :=
  managerRun (some ⟨1, "Netflix", true⟩) (.ok c3Items) (fun i => i == 0) "Netflix" [] []

/-- C3 fails on the code: with two returned records of which one fails
to persist, the success RunOutcome records an item count of 2 (the
driver-returned count) while only 1 record was actually persisted. -/
theorem C3_counterexample :
    c3Run.2.2.2 = [⟨1, "success", "", 2⟩] ∧
    c3Run.2.2.1.length = 1 ∧
    c3Run.1.itemsScraped = 2 ∧
    (2 : Nat) ≠ 1 := by
  decide

/-- C3 amended: on a success outcome, `Manager.Run` records the number
of records the driver returned — `result.ItemsScraped = len(items)` —
regardless of which individual upserts failed; the persisted count does
not enter the RunOutcome. -/
theorem C3_amended_returned_count (service : Service) (items : List WatchHistory)
    (persistFails : Nat → Bool) (serviceName : String) (store : Store)
    (runs : List ScraperRun) :
    (managerRun (some service) (.ok items) persistFails serviceName store runs).1.itemsScraped
        = items.length ∧
    (managerRun (some service) (.ok items) persistFails serviceName store runs).2.2.2
        = runs ++ [⟨service.id, "success", "", items.length⟩] := by
  exact ⟨rfl, rfl⟩

/-! ## Claim C5 — runAll isolation and outcome counts -/

/-- Whether a registered driver's scrape fails. -/
def scrapeFailed (d : DriverSpec) : Bool :=
  !(exceptOk d.scrape)

/-- C5: over N registered drivers whose services all resolve and of
which exactly K fail, `runAll` returns N outcomes of which N−K are
successes, and the aggregate call returns no error — independent of
which drivers fail and of registration order. -/
theorem C5_runAll_isolation (drivers : List DriverSpec) (store : Store)
    (runs : List ScraperRun) (hsvc : ∀ d ∈ drivers, d.svc.isSome = true) :
    (managerRunAll drivers store runs).1.length = drivers.length ∧
    ((managerRunAll drivers store runs).1.filter (fun r => r.success)).length
      = drivers.length - (drivers.filter scrapeFailed).length ∧
    (managerRunAll drivers store runs).2.1 = none := by
  have key : ∀ (ds : List DriverSpec) (st : Store) (rn : List ScraperRun),
      (∀ d ∈ ds, d.svc.isSome = true) →
      (managerRunAll ds st rn).1.length = ds.length ∧
      ((managerRunAll ds st rn).1.filter (fun r => r.success)).length
          + (ds.filter scrapeFailed).length = ds.length ∧
      (managerRunAll ds st rn).2.1 = none := by
    intro ds
    induction ds with
    | nil => intro st rn _; exact ⟨rfl, rfl, rfl⟩
    | cons d rest ih =>
      intro st rn hall
      have hd := hall d (by simp)
      have hrest : ∀ x ∈ rest, x.svc.isSome = true :=
        fun x hx => hall x (List.mem_cons_of_mem _ hx)
      obtain ⟨svc, hsvcEq⟩ := Option.isSome_iff_exists.mp hd
      cases hscrape : d.scrape with
      | error e =>
        have h1 := ih (managerRun d.svc d.scrape d.persistFails d.name st rn).2.2.1
          (managerRun d.svc d.scrape d.persistFails d.name st rn).2.2.2 hrest
        simp only [managerRunAll, hsvcEq, hscrape, managerRun]
        have hfail : scrapeFailed d = true := by
          simp [scrapeFailed, exceptOk, hscrape]
        simp only [hsvcEq, hscrape, managerRun] at h1
        simp [List.filter, hfail, h1.1, h1.2.2]
        omega
      | ok items =>
        have h1 := ih (managerRun d.svc d.scrape d.persistFails d.name st rn).2.2.1
          (managerRun d.svc d.scrape d.persistFails d.name st rn).2.2.2 hrest
        simp only [managerRunAll, hsvcEq, hscrape, managerRun]
        have hok : scrapeFailed d = false := by
          simp [scrapeFailed, exceptOk, hscrape]
        simp only [hsvcEq, hscrape, managerRun] at h1
        simp [List.filter, hok, h1.1, h1.2.2]
        omega
  obtain ⟨h1, h2, h3⟩ := key drivers store runs hsvc
  exact ⟨h1, by omega, h3⟩

/-- Witness for C5: three drivers, the middle one failing. -/
theorem C5_runAll_isolation_witness :
    (managerRunAll
        [⟨"Netflix", some ⟨1, "Netflix", true⟩, .ok [], fun _ => false⟩,
         ⟨"YouTube TV", some ⟨2, "YouTube TV", true⟩, .error "authentication failed", fun _ => false⟩,
         ⟨"Amazon Video", some ⟨3, "Amazon Video", true⟩, .ok [], fun _ => false⟩]
        [] []).1.length = 3 ∧
    ((managerRunAll
        [⟨"Netflix", some ⟨1, "Netflix", true⟩, .ok [], fun _ => false⟩,
         ⟨"YouTube TV", some ⟨2, "YouTube TV", true⟩, .error "authentication failed", fun _ => false⟩,
         ⟨"Amazon Video", some ⟨3, "Amazon Video", true⟩, .ok [], fun _ => false⟩]
        [] []).1.filter (fun r => r.success)).length = 3 -
      ([⟨"Netflix", some ⟨1, "Netflix", true⟩, .ok [], fun _ => false⟩,
        ⟨"YouTube TV", some ⟨2, "YouTube TV", true⟩, .error "authentication failed", fun _ => false⟩,
        ⟨"Amazon Video", some ⟨3, "Amazon Video", true⟩, .ok [], fun _ => false⟩].filter
          scrapeFailed).length ∧
    (managerRunAll
        [⟨"Netflix", some ⟨1, "Netflix", true⟩, .ok [], fun _ => false⟩,
         ⟨"YouTube TV", some ⟨2, "YouTube TV", true⟩, .error "authentication failed", fun _ => false⟩,
         ⟨"Amazon Video", some ⟨3, "Amazon Video", true⟩, .ok [], fun _ => false⟩]
        [] []).2.1 = none :=
  C5_runAll_isolation _ [] [] (by intro d hd; fin_cases hd <;> rfl)

/-! ## Claim C7 — session bootstrap tolerance -/

/-- C7 fails on the code, in both directions: the Amazon bootstrap
aborts on an individual cookie-set failure even though another token was
accepted, and the YouTube TV bootstrap succeeds even though no token at
all could be set. -/
theorem C7_counterexample :
    amazonLoadCookies true [("session-token", true), ("ubid-main", false)]
      = .error "failed to set cookie ubid-main" ∧
    ytLoadCookies true ["SID"] (fun _ _ => false) = .ok 0 ∧
    exceptOk (ytLoadCookies true ["SID"] (fun _ _ => false)) = true := by
  refine ⟨rfl, rfl, rfl⟩

/-- The Amazon/Netflix sequential cookie loop succeeds exactly when
every individual set succeeds. -/
theorem setCookiesSequentially_ok (cookies : List CookieAttempt) :
    exceptOk (setCookiesSequentially cookies) = cookies.all (fun c => c.2) := by
  induction cookies with
  | nil => rfl
  | cons c rest ih =>
    obtain ⟨name, ok⟩ := c
    cases ok with
    | true => simpa [setCookiesSequentially] using ih
    | false => simp [setCookiesSequentially, exceptOk]

/-- C7 amended: the Amazon and Netflix bootstraps abort on the first
individual token-set failure (succeeding only when navigation worked and
every token was accepted; Netflix additionally requires a non-empty
token list), while the YouTube TV bootstrap tolerates every token-set
failure and succeeds whenever navigation worked, even when no token was
accepted. -/
theorem C7_amended_bootstrap_behavior :
    (∀ (navOk : Bool) (cookies : List CookieAttempt),
       exceptOk (amazonLoadCookies navOk cookies)
         = (navOk && cookies.all (fun c => c.2))) ∧
    (∀ (navOk : Bool) (cookies : List CookieAttempt),
       exceptOk (netflixLoadCookies navOk cookies)
         = (!cookies.isEmpty && navOk && cookies.all (fun c => c.2))) ∧
    (∀ (navOk : Bool) (cookies : List String) (setOk : String → String → Bool),
       exceptOk (ytLoadCookies navOk cookies setOk) = navOk) := by
  refine ⟨?_, ?_, ?_⟩
  · intro navOk cookies
    cases navOk with
    | true => simpa [amazonLoadCookies] using setCookiesSequentially_ok cookies
    | false => simp [amazonLoadCookies, exceptOk]
  · intro navOk cookies
    cases cookies with
    | nil => simp [netflixLoadCookies, exceptOk]
    | cons c rest =>
      cases navOk with
      | true =>
        simpa [netflixLoadCookies] using setCookiesSequentially_ok (c :: rest)
      | false => simp [netflixLoadCookies, exceptOk]
  · intro navOk cookies setOk
    cases navOk with
    | true => simp [ytLoadCookies, exceptOk]
    | false => simp [ytLoadCookies, exceptOk]

/-! ## Claim C4 — stop-condition precedence on the Netflix controller -/

/-- Store for the C4 counterexample: the last rendered item is already
persisted. -/
def c4Store : Store :=
  [⟨1, "Old Show", 40, ⟨2024, 1, 15, 0, 0⟩, "S1", "", ""⟩]

/-- Snapshot for the C4 counterexample: the last rendered item parses to
year 2024 (below the cutoff 2025) and its key exists in the store, so
both halt triggers would fire. -/
def c4Snap : NetflixSnapshot :=
  ⟨true, 5, some ("Old Show: S1", "1/15/24")⟩

/-- C4 fails on the code: on an iteration where both the existing-entry
match and the age threshold would fire, the Netflix controller halts
with the age threshold — the year check is evaluated first, not the
existing-entry check. -/
theorem C4_counterexample :
    netflixExistingWouldFire c4Store c4Snap = true ∧
    netflixAgeWouldFire c4Snap = true ∧
    netflixIterate c4Store c4Snap ⟨0, 0, 1⟩
      = .inl (HaltReason.ageThreshold, 5) ∧
    HaltReason.ageThreshold ≠ HaltReason.existingEntry := by
  refine ⟨by decide, by decide, by decide, by decide⟩

/-- C4 amended: whenever both triggers would fire on the same Netflix
iteration, the controller halts due to the age threshold, because
`scrollToLoadItems` evaluates the year check before the existing-entry
check (the YouTube TV controller has no age-threshold check at all). -/
theorem C4_amended_age_first (store : Store) (snap : NetflixSnapshot) (st : ScrollState)
    (_hE : netflixExistingWouldFire store snap = true)
    (hA : netflixAgeWouldFire snap = true) :
    netflixIterate store snap st = .inl (HaltReason.ageThreshold, snap.itemCount) := by
  cases hli : snap.lastItem with
  | none => simp [netflixAgeWouldFire, hli] at hA
  | some ti =>
    obtain ⟨rawTitle, rawDate⟩ := ti
    simp only [netflixAgeWouldFire, hli] at hA
    cases hp : netflixScraperParseDate (trimString rawDate) with
    | none => simp [hp] at hA
    | some d =>
      simp only [hp, Bool.and_eq_true, bne_iff_ne, ne_eq, decide_eq_true_eq] at hA
      obtain ⟨hne, hyear⟩ := hA
      simp [netflixIterate, hli, hp, hne, hyear]

/-- Witness for C4 at the concrete store, snapshot and a fresh loop
state. -/
theorem C4_amended_age_first_witness :
    netflixIterate c4Store c4Snap ⟨4, 2, 7⟩
      = .inl (HaltReason.ageThreshold, c4Snap.itemCount) :=
  C4_amended_age_first c4Store c4Snap ⟨4, 2, 7⟩ (by decide) (by decide)

/-! ## Claim C6 — iteration cap -/

/-- A feed that keeps producing new items forever: the rendered count
grows every iteration, the "Show More" button never disappears, and the
last item always parses to the current year and is never in the store. -/
def everGrowingFeed : Nat → NetflixSnapshot :=
  fun k => ⟨true, k, some ("Some Show", "1/15/25")⟩

/-- On the ever-growing feed the Netflix loop never halts: no trigger
ever fires, whatever the iteration budget. -/
theorem netflixScroll_everGrowing_none :
    ∀ (fuel k : Nat), netflixScrollLoop [] everGrowingFeed fuel ⟨k, 0, k⟩ = none := by
  intro fuel
  induction fuel with
  | zero => intro k; rfl
  | succ n ih =>
    intro k
    have hparse : netflixScraperParseDate (trimString "1/15/25")
        = some ⟨2025, 1, 15, 0, 0⟩ := by decide
    have hIter : netflixIterate [] (everGrowingFeed (k + 1)) ⟨k, 0, k + 1⟩
        = .inr ⟨k + 1, 0, k + 1⟩ := by
      simp [netflixIterate, everGrowingFeed, hparse, WatchHistoryExists,
        netflixTargetYear, Nat.succ_ne_self]
    simp only [netflixScrollLoop]
    rw [hIter]
    exact ih (k + 1)

/-- C6 fails on the code: the Netflix `scrollToLoadItems` loop has no
iteration cap — on a feed that keeps producing new items with no other
halt trigger firing, it never halts, however many iterations it is
given. -/
theorem C6_counterexample :
    ¬ ∃ n : Nat, (netflixScroll [] everGrowingFeed n).isSome = true := by
  rintro ⟨n, h⟩
  rw [netflixScroll, netflixScroll_everGrowing_none n 0] at h
  simp at h

/-- The YouTube TV loop executes at most `clickCount + budget`
iterations. -/
theorem ytScrollLoop_clicks_le (now : DateTime) (store : Store) (serviceID : Nat)
    (cfg : YTScraperConfig) (feed : Nat → YTSnapshot) :
    ∀ (budget clickCount stable prev : Nat),
      (ytScrollLoop now store serviceID cfg feed budget clickCount stable prev).2
        ≤ clickCount + budget := by
  intro budget
  induction budget with
  | zero => intro c s p; simp [ytScrollLoop]
  | succ b ih =>
    intro c s p
    simp only [ytScrollLoop]
    cases hi : ytIterate now store serviceID cfg (feed (c + 1)) s p with
    | mk halt rest =>
      cases halt with
      | some h => simp
      | none => simpa using le_trans (ih (c + 1) rest.1 rest.2) (by omega)

/-- C6 amended: the YouTube TV controller does halt after at most its
fixed cap of 200 iterations on every feed; the Netflix controller has no
iteration cap and need not ever halt on a feed that keeps producing new
items. -/
theorem C6_amended_cap_only_youtube :
    (∀ (svc : Service) (now : DateTime) (store : Store) (cfg : YTScraperConfig)
        (feed : Nat → YTSnapshot) (r : YTHalt × Nat),
       ytScrollToLoadItems (some svc) now store cfg feed = .ok r → r.2 ≤ ytMaxClicks) ∧
    (∀ fuel : Nat, netflixScroll [] everGrowingFeed fuel = none) := by
  constructor
  · intro svc now store cfg feed r h
    simp only [ytScrollToLoadItems] at h
    injection h with h2
    rw [← h2]
    simpa using ytScrollLoop_clicks_le now store svc.id cfg feed ytMaxClicks 0 0 0
  · intro fuel
    rw [netflixScroll]
    exact netflixScroll_everGrowing_none fuel 0

/-- Witness for C6 at a concrete empty-feed run, which stabilises after
three iterations. -/
theorem C6_amended_cap_only_youtube_witness :
    (YTHalt.stableCount, 3).2 ≤ ytMaxClicks :=
  C6_amended_cap_only_youtube.1 ⟨2, "YouTube TV", true⟩ ⟨2025, 1, 1, 0, 0⟩ [] ⟨false, 0⟩
    (fun _ => ⟨0, "", ""⟩) (YTHalt.stableCount, 3) (by rfl)

/-! ## Claim C8 — year inference for month-name-plus-day headers -/

/-- Go's `time.Date` performs no normalization on an in-range day. -/
theorem carryDays_of_fit {y : Int} {m d : Nat} (h : ¬ d > daysInMonth y m) :
    ∀ fuel, carryDays fuel y m d = (y, m, d) := by
  intro fuel
  cases fuel with
  | zero => rfl
  | succ n => simp [carryDays, h]

/-- Applying `mkDate` to an in-range day gives the literal date. -/
theorem mkDate_eq {y : Int} {m d : Nat} (hh mm : Nat) (h1 : 1 ≤ d)
    (h2 : d ≤ daysInMonth y m) :
    mkDate y m d hh mm = ⟨y, m, d, hh, mm⟩ := by
  have hd0 : ¬ d = 0 := by omega
  have hfit : ¬ d > daysInMonth y m := by omega
  simp [mkDate, hd0, carryDays_of_fit hfit]

/-- C8 fails on the code: on 2025-10-11 the Amazon normalizer parses the
year-less header "Dec 25" to 2025-12-25 — a future date whose year is
not decremented (the claim demands 2024-12-25). -/
theorem C8_counterexample :
    parseAmazonDate ⟨2025, 10, 11, 12, 0⟩ "Dec 25" = some ⟨2025, 12, 25, 0, 0⟩ ∧
    DateTime.after ⟨2025, 12, 25, 0, 0⟩ ⟨2025, 10, 11, 12, 0⟩ = true ∧
    (2025 : Int) ≠ 2025 - 1 := by
  refine ⟨by decide, by decide, by decide⟩

/-- C8 amended: only the YouTube TV normalizer applies the
forward-looking correction — a month-name-plus-day header gets the
current year, decremented exactly when the resulting date would lie in
the future — while the Amazon normalizer assigns the current year
unconditionally, with no future-date correction. -/
theorem C8_amended_correction_only_youtube :
    (∀ (now : DateTime) (hdr t monStr : String) (mo dy h12 mi : Nat) (ampm : String),
       trimString hdr ≠ "Yesterday" → trimString hdr ≠ "Today" →
       findTime (replaceAllString t "\u202F" " ").data = some (h12, mi, ampm) →
       findMonthDay (trimString hdr).data = some (monStr, dy) →
       lookupYtMonth ytMonthMap monStr = some mo →
       1 ≤ dy → dy ≤ daysInMonth now.year mo → dy ≤ daysInMonth (now.year - 1) mo →
       parseDateAndTime now hdr t =
         some ⟨(if (mkDate now.year mo dy 0 0).after now then now.year - 1 else now.year),
               mo, dy, to24Hour h12 ampm, mi⟩) ∧
    (∀ (now : DateTime) (s : String) (t : DateTime),
       toLowerString (trimString s) ≠ "today" →
       toLowerString (trimString s) ≠ "yesterday" →
       parseMonthNameDY monthFullNames (trimString s) = none →
       parseMonthNameDY monthAbbrevNames (trimString s) = none →
       parseMDY 1 2 1 2 4 (trimString s) = none →
       parseISO (trimString s) = none →
       parseMonthNameD monthFullNames (trimString s) = none →
       parseMonthNameD monthAbbrevNames (trimString s) = some t →
       parseAmazonDate now s = some (mkDate now.year t.month t.day 0 0)) := by
  constructor
  · intro now hdr t monStr mo dy h12 mi ampm h1 h2 ht hmd hmo hd1 hd2 hd3
    simp only [parseDateAndTime, ht]
    rw [if_neg h1, if_neg h2, hmd]
    simp only [hmo]
    rw [mkDate_eq 0 0 hd1 hd2]
    by_cases hfut : DateTime.after ⟨now.year, mo, dy, 0, 0⟩ now = true
    · simp [hfut, mkDate_eq _ _ hd1 hd3]
    · simp only [Bool.not_eq_true] at hfut
      simp [hfut, mkDate_eq _ _ hd1 hd2]
  · intro now s t h1 h2 h3 h4 h5 h6 h7 h8
    simp only [parseAmazonDate]
    rw [if_neg h1, if_neg h2]
    simp only [amazonFormats, amazonTryFormats, h3, h4, h5, h6, h7, h8]
    rw [show layoutHasYear "Jan 2" = false from by decide]
    simp

/-- Witness for C8's amended statement: "Dec 25" seen on 2025-10-11
through both normalizers. -/
theorem C8_amended_correction_only_youtube_witness :
    (parseDateAndTime ⟨2025, 10, 11, 12, 0⟩ "Dec 25" "6:00 PM" =
      some ⟨(if (mkDate (2025 : Int) 12 25 0 0).after ⟨2025, 10, 11, 12, 0⟩
              then (2025 : Int) - 1 else 2025), 12, 25, to24Hour 6 "PM", 0⟩) ∧
    (parseAmazonDate ⟨2025, 10, 11, 12, 0⟩ "Dec 25" =
      some (mkDate (2025 : Int) 12 25 0 0)) :=
  ⟨C8_amended_correction_only_youtube.1 ⟨2025, 10, 11, 12, 0⟩ "Dec 25" "6:00 PM" "Dec"
      12 25 6 0 "PM" (by decide) (by decide) (by decide) (by decide) (by decide)
      (by decide) (by decide) (by decide),
   C8_amended_correction_only_youtube.2 ⟨2025, 10, 11, 12, 0⟩ "Dec 25" ⟨0, 12, 25, 0, 0⟩
      (by decide) (by decide) (by decide) (by decide) (by decide) (by decide)
      (by decide) (by decide)⟩

/-! ## Importer lemmas for claims C1 and C10 -/

/-- The (service, base title, watched-at) key a decoded CSV record
would import under, if it would import at all: `none` for read errors,
short rows and unparseable dates. -/
def okRowKey : Except String (List String) → Option WatchHistory
  | .ok (f0 :: f1 :: _) =>
    (parseNetflixDate (trimString f1)).map fun d =>
      ⟨importerServiceID, (splitTitleAndEpisode (trimString f0)).1, 0, d, "", "", ""⟩
  | _ => none

/-- A four-field existence hit implies a three-field (upsert-key) hit,
whatever the non-key fields of the probe record. -/
theorem whExists_imp_keyExists {store : Store} {sid : Nat} {title epi : String}
    {wa : DateTime} (h : WatchHistoryExists store sid title epi wa = true)
    (dur : Nat) (epi2 th g : String) :
    keyExists store ⟨sid, title, dur, wa, epi2, th, g⟩ = true := by
  simp only [WatchHistoryExists, List.any_eq_true, Bool.and_eq_true, beq_iff_eq] at h
  obtain ⟨row, hmem, ⟨⟨h1, h2⟩, h3⟩, h4⟩ := h
  simp only [keyExists, List.any_eq_true]
  exact ⟨row, hmem, by simp [sameKey, h1, h2, h4]⟩

/-- Congruence: `keyExists` only looks at the three key fields of the probe. -/
theorem keyExists_congr {store : Store} {a b : WatchHistory}
    (h1 : a.serviceID = b.serviceID) (h2 : a.title = b.title)
    (h3 : a.watchedAt = b.watchedAt) :
    keyExists store a = keyExists store b := by
  simp only [keyExists, sameKey, h1, h2, h3]

/-- A parseable date makes `processRow` succeed (errors come only from
the date parse). -/
theorem processRow_ok_of_parse {tmdb : String → Option ContentInfo} {store : Store}
    {row : CSVRow} {d : DateTime} (hp : parseNetflixDate row.date = some d) :
    ∃ store', processRow tmdb store row = .ok store' := by
  simp only [processRow, hp]
  split <;> exact ⟨_, rfl⟩

/-- After a successful `processRow` the row's upsert key is stored. -/
theorem processRow_key {tmdb : String → Option ContentInfo} {store store' : Store}
    {row : CSVRow} {d : DateTime} (h : processRow tmdb store row = .ok store')
    (hp : parseNetflixDate row.date = some d) :
    keyExists store'
      ⟨importerServiceID, (splitTitleAndEpisode row.title).1, 0, d, "", "", ""⟩ = true := by
  simp only [processRow, hp] at h
  split at h
  · cases h
    exact whExists_imp_keyExists (by assumption) _ _ _ _
  · cases h
    rw [keyExists_insert]
    simp [sameKey]

/-- A successful `processRow` never removes a stored upsert key. -/
theorem processRow_mono {tmdb : String → Option ContentInfo} {store store' : Store}
    {row : CSVRow} {x : WatchHistory} (h : processRow tmdb store row = .ok store')
    (hx : keyExists store x = true) : keyExists store' x = true := by
  simp only [processRow] at h
  split at h
  · cases h
  · split at h
    · cases h; exact hx
    · cases h
      rw [keyExists_insert, hx, Bool.true_or]

/-- A `processRow` whose upsert key is already stored does not change
the row count. -/
theorem processRow_length {tmdb : String → Option ContentInfo} {store store' : Store}
    {row : CSVRow} {d : DateTime} (h : processRow tmdb store row = .ok store')
    (hp : parseNetflixDate row.date = some d)
    (hk : keyExists store
      ⟨importerServiceID, (splitTitleAndEpisode row.title).1, 0, d, "", "", ""⟩ = true) :
    store'.length = store.length := by
  simp only [processRow, hp] at h
  split at h
  · cases h; rfl
  · cases h
    refine length_insert_of_keyExists ?_
    exact keyExists_congr rfl rfl rfl ▸ hk

/-- The `ImportResult` of the row loop does not depend on the starting
store: whether a row imports or errors is decided by its date text
alone (an already-present key still takes the `.ok` path). -/
theorem importRows_result_eq (tmdb : String → Option ContentInfo)
    : ∀ (recs : List (Except String (List String))) (store1 store2 : Store)
        (acc : ImportResult),
      (importRows tmdb recs store1 acc).1 = (importRows tmdb recs store2 acc).1 := by
  intro recs
  induction recs with
  | nil => intro store1 store2 acc; rfl
  | cons rec rest ih =>
    intro store1 store2 acc
    cases rec with
    | error e => simp only [importRows]; exact ih _ _ _
    | ok record =>
      match record with
      | [] => simp only [importRows]; exact ih _ _ _
      | [f0] => simp only [importRows]; exact ih _ _ _
      | f0 :: f1 :: tail =>
        simp only [importRows]
        cases hp : parseNetflixDate (trimString f1) with
        | none =>
          simp only [processRow, hp]
          exact ih _ _ _
        | some d =>
          obtain ⟨s1, hs1⟩ :=
            @processRow_ok_of_parse tmdb store1 ⟨trimString f0, trimString f1⟩ d hp
          obtain ⟨s2, hs2⟩ :=
            @processRow_ok_of_parse tmdb store2 ⟨trimString f0, trimString f1⟩ d hp
          rw [hs1, hs2]
          exact ih _ _ _

/-- Stored upsert keys survive the whole row loop. -/
theorem importRows_mono (tmdb : String → Option ContentInfo)
    : ∀ (recs : List (Except String (List String))) (store : Store)
        (acc : ImportResult) (x : WatchHistory),
      keyExists store x = true → keyExists (importRows tmdb recs store acc).2 x = true := by
  intro recs
  induction recs with
  | nil => intro store acc x hx; exact hx
  | cons rec rest ih =>
    intro store acc x hx
    cases rec with
    | error e => simp only [importRows]; exact ih _ _ _ hx
    | ok record =>
      match record with
      | [] => simp only [importRows]; exact ih _ _ _ hx
      | [f0] => simp only [importRows]; exact ih _ _ _ hx
      | f0 :: f1 :: tail =>
        simp only [importRows]
        cases hpr : processRow tmdb store ⟨trimString f0, trimString f1⟩ with
        | error e => exact ih _ _ _ hx
        | ok store' => exact ih _ _ _ (processRow_mono hpr hx)

/-- After the row loop, every record that can import has its upsert key
in the final store. -/
theorem importRows_has_keys (tmdb : String → Option ContentInfo)
    : ∀ (recs : List (Except String (List String))) (store : Store)
        (acc : ImportResult) (r : Except String (List String)) (wh : WatchHistory),
      r ∈ recs → okRowKey r = some wh →
      keyExists (importRows tmdb recs store acc).2 wh = true := by
  intro recs
  induction recs with
  | nil => intro store acc r wh hmem; cases hmem
  | cons rec rest ih =>
    intro store acc r wh hmem hkey
    cases hmem with
    | head =>
      match rec, hkey with
      | .ok (f0 :: f1 :: tail), hkey =>
        simp only [okRowKey, Option.map_eq_some'] at hkey
        obtain ⟨d, hp, hwh⟩ := hkey
        obtain ⟨store', hs⟩ :=
          @processRow_ok_of_parse tmdb store ⟨trimString f0, trimString f1⟩ d hp
        simp only [importRows, hs]
        refine importRows_mono tmdb rest store' _ wh ?_
        rw [← hwh]
        exact processRow_key hs hp
    | tail _ hmem' =>
      cases rec with
      | error e => simp only [importRows]; exact ih _ _ _ _ hmem' hkey
      | ok record =>
        match record with
        | [] => simp only [importRows]; exact ih _ _ _ _ hmem' hkey
        | [f0] => simp only [importRows]; exact ih _ _ _ _ hmem' hkey
        | f0 :: f1 :: tail =>
          simp only [importRows]
          cases hpr : processRow tmdb store ⟨trimString f0, trimString f1⟩ with
          | error e => exact ih _ _ _ _ hmem' hkey
          | ok store' => exact ih _ _ _ _ hmem' hkey

/-- When every importable record's upsert key is already stored, the row
loop does not change the stored row count. -/
theorem importRows_length (tmdb : String → Option ContentInfo)
    : ∀ (recs : List (Except String (List String))) (store : Store)
        (acc : ImportResult),
      (∀ r ∈ recs, ∀ wh, okRowKey r = some wh → keyExists store wh = true) →
      (importRows tmdb recs store acc).2.length = store.length := by
  intro recs
  induction recs with
  | nil => intro store acc _; rfl
  | cons rec rest ih =>
    intro store acc hall
    have hrest : ∀ r ∈ rest, ∀ wh, okRowKey r = some wh → keyExists store wh = true :=
      fun r hr => hall r (List.mem_cons_of_mem _ hr)
    cases rec with
    | error e => simp only [importRows]; exact ih _ _ hrest
    | ok record =>
      match record with
      | [] => simp only [importRows]; exact ih _ _ hrest
      | [f0] => simp only [importRows]; exact ih _ _ hrest
      | f0 :: f1 :: tail =>
        simp only [importRows]
        cases hp : parseNetflixDate (trimString f1) with
        | none =>
          simp only [processRow, hp]
          exact ih _ _ hrest
        | some d =>
          obtain ⟨store', hs⟩ :=
            @processRow_ok_of_parse tmdb store ⟨trimString f0, trimString f1⟩ d hp
          rw [hs]
          have hk : keyExists store
              ⟨importerServiceID, (splitTitleAndEpisode (trimString f0)).1, 0, d,
                "", "", ""⟩ = true := by
            refine hall (.ok (f0 :: f1 :: tail)) (by simp) _ ?_
            simp [okRowKey, hp]
          have hlen : store'.length = store.length := processRow_length hs hp hk
          have hrest' : ∀ r ∈ rest, ∀ wh, okRowKey r = some wh →
              keyExists store' wh = true :=
            fun r hr wh hw => processRow_mono hs (hrest r hr wh hw)
          rw [ih _ _ hrest', hlen]

/-! ## Claim C1 — reimport counting -/

/-- Enrichment unavailable (every TMDB lookup fails). -/
def c1Tmdb : String → Option ContentInfo := fun _ => none

/-- The two-row CSV of the C1 counterexample. -/
def c1Rows : List (Except String (List String)) :=
  [.ok ["Movie A", "1/15/25"], .ok ["Show B: S1: E2", "2/20/25"]]

/-- The store after the first full import of `c1Rows`. -/
def c1Store1 : Store :=
  [⟨1, "Movie A", 105, ⟨2025, 1, 15, 0, 0⟩, "", "", ""⟩,
   ⟨1, "Show B", 40, ⟨2025, 2, 20, 0, 0⟩, "S1: E2", "", ""⟩]

/-- C1 fails on the code: every row of a fully-imported CSV already
exists in the store, yet `processRow` returns success for it and
`ImportCSV` counts it as imported — reimport returns imported = 2
(= total rows) and skipped = 0, not imported = 0 and skipped = 2. -/
theorem C1_counterexample :
    ImportCSV c1Tmdb [] ["Title", "Date"] c1Rows = some (⟨2, 2, 0, 0, []⟩, c1Store1) ∧
    ImportCSV c1Tmdb c1Store1 ["Title", "Date"] c1Rows = some (⟨2, 2, 0, 0, []⟩, c1Store1) ∧
    (2 : Nat) ≠ 0 ∧ (0 : Nat) ≠ 2 := by
  refine ⟨by decide, by decide, by decide, by decide⟩

/-- C1 amended: an already-existing row is not re-inserted (reimport
leaves the stored row count unchanged) but is counted as imported, not
skipped — a second import of the same CSV returns exactly the first
run's ImportResult (so imported = the first run's imported, skipped
counts only short rows) rather than imported = 0, skipped = total. -/
theorem C1_amended_reimport (tmdb : String → Option ContentInfo) (store0 : Store)
    (header : List String) (recs : List (Except String (List String)))
    (res1 res2 : ImportResult) (st1 st2 : Store)
    (h1 : ImportCSV tmdb store0 header recs = some (res1, st1))
    (h2 : ImportCSV tmdb st1 header recs = some (res2, st2)) :
    res2 = res1 ∧ st2.length = st1.length := by
  by_cases hh : header.length < 2
  · rw [ImportCSV, if_pos hh] at h1
    cases h1
  · rw [ImportCSV, if_neg hh] at h1 h2
    injection h1 with h1'
    injection h2 with h2'
    have e1a : res1 = (importRows tmdb recs store0 ⟨0, 0, 0, 0, []⟩).1 := by rw [h1']
    have e1b : st1 = (importRows tmdb recs store0 ⟨0, 0, 0, 0, []⟩).2 := by rw [h1']
    have e2a : res2 = (importRows tmdb recs st1 ⟨0, 0, 0, 0, []⟩).1 := by rw [h2']
    have e2b : st2 = (importRows tmdb recs st1 ⟨0, 0, 0, 0, []⟩).2 := by rw [h2']
    constructor
    · rw [e1a, e2a]
      exact importRows_result_eq tmdb recs st1 store0 ⟨0, 0, 0, 0, []⟩
    · rw [e2b]
      refine importRows_length tmdb recs st1 ⟨0, 0, 0, 0, []⟩ ?_
      intro r hr wh hw
      rw [e1b]
      exact importRows_has_keys tmdb recs store0 ⟨0, 0, 0, 0, []⟩ r wh hr hw

/-- Witness for C1's amended statement on the concrete two-row CSV. -/
theorem C1_amended_reimport_witness :
    (⟨2, 2, 0, 0, []⟩ : ImportResult) = ⟨2, 2, 0, 0, []⟩ ∧
    c1Store1.length = c1Store1.length :=
  C1_amended_reimport c1Tmdb [] ["Title", "Date"] c1Rows ⟨2, 2, 0, 0, []⟩ ⟨2, 2, 0, 0, []⟩
    c1Store1 c1Store1 (by decide) (by decide)

/-! ## Claim C10 — row accounting invariant -/

/-- Each CSV-readable record adds one to `totalRows` and one to exactly
one of the three buckets. -/
theorem importRows_accounting (tmdb : String → Option ContentInfo)
    : ∀ (recs : List (Except String (List String))) (store : Store)
        (acc : ImportResult),
      (∀ r ∈ recs, exceptOk r = true) →
      (importRows tmdb recs store acc).1.totalRows + acc.imported + acc.skipped + acc.errors
        = (importRows tmdb recs store acc).1.imported
          + (importRows tmdb recs store acc).1.skipped
          + (importRows tmdb recs store acc).1.errors + acc.totalRows := by
  intro recs
  induction recs with
  | nil => intro store acc _; simp only [importRows]; omega
  | cons rec rest ih =>
    intro store acc hok
    have hrest : ∀ r ∈ rest, exceptOk r = true :=
      fun r hr => hok r (List.mem_cons_of_mem _ hr)
    cases rec with
    | error e =>
      have := hok (.error e) (by simp)
      simp [exceptOk] at this
    | ok record =>
      match record with
      | [] =>
        simp only [importRows]
        have := ih store ⟨acc.totalRows + 1, acc.imported, acc.skipped + 1,
          acc.errors, acc.errorMessages⟩ hrest
        dsimp only at this ⊢
        omega
      | [f0] =>
        simp only [importRows]
        have := ih store ⟨acc.totalRows + 1, acc.imported, acc.skipped + 1,
          acc.errors, acc.errorMessages⟩ hrest
        dsimp only at this ⊢
        omega
      | f0 :: f1 :: tail =>
        simp only [importRows]
        cases hpr : processRow tmdb store ⟨trimString f0, trimString f1⟩ with
        | error e =>
          have := ih store ⟨acc.totalRows + 1, acc.imported, acc.skipped,
            acc.errors + 1, acc.errorMessages ++
              ["Error processing \x27" ++ trimString f0 ++ "\x27: " ++ e]⟩ hrest
          dsimp only at this ⊢
          omega
        | ok store' =>
          have := ih store' ⟨acc.totalRows + 1, acc.imported + 1, acc.skipped,
            acc.errors, acc.errorMessages⟩ hrest
          dsimp only at this ⊢
          omega

/-- C10: when every data record is readable at the CSV level, the
returned ImportResult satisfies TotalRows = Imported + Skipped + Errors
— each data row lands in exactly one bucket. -/
theorem C10_row_accounting (tmdb : String → Option ContentInfo) (store : Store)
    (header : List String) (recs : List (Except String (List String)))
    (res : ImportResult) (st : Store)
    (hok : ∀ r ∈ recs, exceptOk r = true)
    (h : ImportCSV tmdb store header recs = some (res, st)) :
    res.totalRows = res.imported + res.skipped + res.errors := by
  by_cases hh : header.length < 2
  · rw [ImportCSV, if_pos hh] at h
    cases h
  · rw [ImportCSV, if_neg hh] at h
    injection h with h'
    have e1 : res = (importRows tmdb recs store ⟨0, 0, 0, 0, []⟩).1 := by rw [h']
    have := importRows_accounting tmdb recs store ⟨0, 0, 0, 0, []⟩ hok
    rw [e1]
    dsimp only at this ⊢
    omega

/-- Witness for C10: a CSV with one imported row, one short row and one
bad-date row satisfies 3 = 1 + 1 + 1. -/
theorem C10_row_accounting_witness :
    (⟨3, 1, 1, 1, ["Error processing \x27Bad Row\x27: failed to parse date \x27not-a-date\x27"]⟩
        : ImportResult).totalRows
      = (⟨3, 1, 1, 1, ["Error processing \x27Bad Row\x27: failed to parse date \x27not-a-date\x27"]⟩
        : ImportResult).imported
      + (⟨3, 1, 1, 1, ["Error processing \x27Bad Row\x27: failed to parse date \x27not-a-date\x27"]⟩
        : ImportResult).skipped
      + (⟨3, 1, 1, 1, ["Error processing \x27Bad Row\x27: failed to parse date \x27not-a-date\x27"]⟩
        : ImportResult).errors :=
  C10_row_accounting c1Tmdb [] ["Title", "Date"]
    [.ok ["Movie A", "1/15/25"], .ok ["OnlyOneField"], .ok ["Bad Row", "not-a-date"]]
    ⟨3, 1, 1, 1, ["Error processing \x27Bad Row\x27: failed to parse date \x27not-a-date\x27"]⟩
    [⟨1, "Movie A", 105, ⟨2025, 1, 15, 0, 0⟩, "", "", ""⟩]
    (by intro r hr; fin_cases hr <;> rfl) (by decide)
